import Mathlib

set_option linter.unusedVariables false
set_option linter.unnecessarySeqFocus false
set_option maxRecDepth 4000

/-!
Verification of the ObsidianExporter renderer (`obsidianexporter.py`).

The development shallowly embeds the three core subsystems of the source
file:

* the markup renderer: the per-node text pipeline of `generate_html`
  (lines 751-832) together with `clean_content_after_code` and
  `add_copy_button`, modelled as functions on `List Char`;
* the edge router: `drawEdge` / `calculateAnchorPoint` /
  `createPerpendicularControlPoints` / `adjustArrowEndPoint`
  (lines 1051-1345), modelled over `ℚ` (JavaScript numbers are treated as
  exact rationals; the single square root the code computes is passed in as
  an explicit argument, pinned by hypotheses where it matters);
* the layout engine: `filter_main_nodes` (lines 129-160) and the canvas
  extent computation of `generate_html` (lines 191-219), modelled over `ℝ`
  with `Real.sqrt` for the Euclidean distances.

Each Python `re.sub` call is embedded as a dedicated scanner with the exact
leftmost, non-overlapping semantics of the Python regex engine (including
the relevant greedy/lazy backtracking behaviour of the concrete patterns
used by the source).
-/

/-! ### Generic string-scanning helpers (Python `re.sub` building blocks) -/

/-- Whitespace class used by Python `str.strip` and the `\s` regex class,
restricted to ASCII (every input considered in this development is ASCII). -/
def isPySpace (c : Char) : Bool :=
  c == ' ' || c == '\t' || c == '\n' || c == '\r' || c == '\x0b' || c == '\x0c'

/-- Python `str.strip()`. -/
def pyStrip (l : List Char) : List Char :=
  ((l.dropWhile isPySpace).reverse.dropWhile isPySpace).reverse

/-- Python `str.replace(c, rep)` for a single-character needle. -/
def replaceChar (c : Char) (rep : List Char) : List Char → List Char
  | [] => []
  | a :: as => if a == c then rep ++ replaceChar c rep as else a :: replaceChar c rep as

/-- Split a string at the first occurrence of `pat`, returning the part
before the occurrence and the part after it.  `none` when `pat` does not
occur.  This is the core of leftmost regex matching for literal patterns. -/
def splitFirst (pat : List Char) : List Char → Option (List Char × List Char)
  | [] => if pat.isEmpty then some ([], []) else none
  | c :: cs =>
    if pat.isPrefixOf (c :: cs) then some ([], (c :: cs).drop pat.length)
    else
      match splitFirst pat cs with
      | some (b, r) => some (c :: b, r)
      | none => none

/-- Python `pat in s` for a literal pattern. -/
def containsSub (pat s : List Char) : Bool :=
  (splitFirst pat s).isSome

theorem dropWhile_length_le (p : Char → Bool) (l : List Char) :
    (l.dropWhile p).length ≤ l.length := by
  induction l with
  | nil => simp
  | cons a l ih =>
    by_cases h : p a <;> simp [List.dropWhile, h] <;> omega

theorem takeWhile_length_le (p : Char → Bool) (l : List Char) :
    (l.takeWhile p).length ≤ l.length := by
  induction l with
  | nil => simp
  | cons a l ih =>
    by_cases h : p a <;> simp [List.takeWhile, h] <;> omega

theorem splitFirst_length {pat : List Char} :
    ∀ {s b r : List Char}, splitFirst pat s = some (b, r) →
      r.length + pat.length ≤ s.length := by
  intro s
  induction s with
  | nil =>
    intro b r h
    by_cases hp : pat.isEmpty
    · simp [splitFirst, hp] at h
      obtain ⟨hb, hr⟩ := h
      have : pat = [] := List.isEmpty_iff.mp hp
      simp [← hr, this]
    · simp [splitFirst, hp] at h
  | cons c cs ih =>
    intro b r h
    rw [splitFirst] at h
    by_cases hp : pat.isPrefixOf (c :: cs)
    · simp only [hp, if_pos, Option.some.injEq, Prod.mk.injEq] at h
      have hpre : pat <+: (c :: cs) := List.isPrefixOf_iff_prefix.mp hp
      have hlen : pat.length ≤ (c :: cs).length := hpre.length_le
      obtain ⟨hb, hr⟩ := h
      subst hr
      rw [List.length_drop]
      omega
    · simp only [hp, if_neg, Bool.false_eq_true, not_false_iff] at h
      cases hsp : splitFirst pat cs with
      | some br =>
        obtain ⟨b', r'⟩ := br
        rw [hsp] at h
        simp at h
        obtain ⟨hb, hr⟩ := h
        subst hr
        have := ih hsp
        simp
        omega
      | none => rw [hsp] at h; simp at h

/-! ### Literal fragments used by the renderer -/

/-- The triple-backtick code-fence marker. -/
def fenceChars : List Char := ("```").data

def strongOpenTag : List Char := ("<strong>").data
def strongCloseTag : List Char := ("</strong>").data
def emOpenTag : List Char := ("<em>").data
def emCloseTag : List Char := ("</em>").data
def aOpenTag : List Char := ("<a href=\"").data
def aMidTag : List Char := ("\" target=\"_blank\">").data
def aCloseTag : List Char := ("</a>").data
def pOpenTag : List Char := ("<p>").data
def pCloseTag : List Char := ("</p>").data
def pBreakTag : List Char := ("</p><p>").data
def brTag : List Char := ("<br>").data
def liOpenTag : List Char := ("<li>").data
def liCloseTag : List Char := ("</li>").data
def olChars : List Char := ("ol").data
def ulChars : List Char := ("ul").data

/-- Opening part of the replacement emitted by `add_copy_button`
(`generate_html`, line 762), up to the interpolated `clean_code`. -/
def copyButtonPreOpen : List Char :=
  ("<pre class=\"code-block\" style=\"position: relative; margin-top: 0; padding: 8px 8px 8px 8px;\"><button class=\"copy-button\" onclick=\"const codeContent = this.parentElement.textContent.replace('⮻', '').trim(); navigator.clipboard.writeText(codeContent).then(() => \x7bthis.textContent = '✅ Copié !'; this.style.background = '#4caf50'; setTimeout(() => \x7bthis.textContent = '⮻'; this.style.background = 'transparent';\x7d, 2000);\x7d).catch(() => \x7bthis.textContent = '❌ Erreur'; setTimeout(() => \x7bthis.textContent = '⮻';\x7d, 2000);\x7d);\">⮻</button><div class=\"code-content\">").data

/-- Closing part of the replacement emitted by `add_copy_button`. -/
def copyButtonPreClose : List Char := ("</div></pre>").data

/-! ### Code-fence substitution

`re.sub(r'```([\s\S]*?)```', repl, content)`: leftmost match of a literal
fence, lazily shortest body up to the next fence, replacement not rescanned,
scanning resumes after the closing fence; an unpaired opening fence is left
in place (the engine advances one character). -/

def codeBlockSubGo (repl : List Char → List Char) : Nat → List Char → List Char
  | 0, s => s
  | _, [] => []
  | fuel + 1, c :: cs =>
    if fenceChars.isPrefixOf (c :: cs) then
      match splitFirst fenceChars ((c :: cs).drop 3) with
      | some (b, r) => repl b ++ codeBlockSubGo repl fuel r
      | none => c :: codeBlockSubGo repl fuel cs
    else c :: codeBlockSubGo repl fuel cs

/-- Every step of the scan consumes at least one character, so the input
length bounds the number of steps and the fuel never runs out. -/
def codeBlockSub (repl : List Char → List Char) (s : List Char) : List Char :=
  codeBlockSubGo repl s.length s

/-- `replace_code_block` (the inner function of `clean_content_after_code`,
lines 94-101): drop the first line of the fenced body (the language tag)
when the body has more than one line. -/
def replace_code_block (code_content : List Char) : List Char :=
  let lines := code_content.splitOn '\n'
  if 1 < lines.length then
    fenceChars ++ ['\n'] ++ List.intercalate ['\n'] (lines.drop 1) ++ ['\n'] ++ fenceChars
  else
    fenceChars ++ ['\n'] ++ fenceChars

/-- `clean_content_after_code` (lines 89-105). -/
def clean_content_after_code (content : List Char) : List Char :=
  if content.isEmpty then content
  else codeBlockSub replace_code_block content

/-- `add_copy_button` (lines 753-762): wrap the fenced body (minus its first
line, when there is more than one) in the copy-button `<pre>` scaffolding. -/
def add_copy_button (code_content : List Char) : List Char :=
  let lines := code_content.splitOn '\n'
  let clean_code :=
    if 1 < lines.length then List.intercalate ['\n'] (lines.drop 1) else code_content
  copyButtonPreOpen ++ clean_code ++ copyButtonPreClose

/-! ### Inline-span substitutions (lines 799-801)

Each scanner reproduces the corresponding `re.sub` exactly: the character
classes `[^*]`, `[^\]]`, `[^)]` cannot match the closing delimiter, so the
greedy quantifier has a unique viable extent and the engine either matches
the maximal run or fails and advances one character. -/

/-- `re.sub(r'\*\*([^*]+)\*\*', r'<strong>\1</strong>', content)`. -/
def subBoldGo : Nat → List Char → List Char
  | 0, s => s
  | _, [] => []
  | fuel + 1, '*' :: '*' :: rest =>
    let body := rest.takeWhile (fun c => !(c == '*'))
    let rem := rest.dropWhile (fun c => !(c == '*'))
    if !body.isEmpty && ['*', '*'].isPrefixOf rem then
      strongOpenTag ++ body ++ strongCloseTag ++ subBoldGo fuel (rem.drop 2)
    else '*' :: subBoldGo fuel ('*' :: rest)
  | fuel + 1, c :: cs => c :: subBoldGo fuel cs

def subBold (s : List Char) : List Char :=
  subBoldGo s.length s

/-- `re.sub(r'\*([^*]+)\*', r'<em>\1</em>', content)`. -/
def subItalicGo : Nat → List Char → List Char
  | 0, s => s
  | _, [] => []
  | fuel + 1, '*' :: rest =>
    let body := rest.takeWhile (fun c => !(c == '*'))
    let rem := rest.dropWhile (fun c => !(c == '*'))
    if !body.isEmpty && ['*'].isPrefixOf rem then
      emOpenTag ++ body ++ emCloseTag ++ subItalicGo fuel (rem.drop 1)
    else '*' :: subItalicGo fuel rest
  | fuel + 1, c :: cs => c :: subItalicGo fuel cs

def subItalic (s : List Char) : List Char :=
  subItalicGo s.length s

/-- `re.sub(r'\[([^\]]+)\]\(([^)]+)\)', r'<a href="\2" target="_blank">\1</a>', content)`. -/
def subLinkGo : Nat → List Char → List Char
  | 0, s => s
  | _, [] => []
  | fuel + 1, '[' :: rest =>
    let txt := rest.takeWhile (fun c => !(c == ']'))
    if !txt.isEmpty then
      match rest.dropWhile (fun c => !(c == ']')) with
      | ']' :: '(' :: r2 =>
        let url := r2.takeWhile (fun c => !(c == ')'))
        let r3 := r2.dropWhile (fun c => !(c == ')'))
        if !url.isEmpty && [')'].isPrefixOf r3 then
          aOpenTag ++ url ++ aMidTag ++ txt ++ aCloseTag ++ subLinkGo fuel (r3.drop 1)
        else '[' :: subLinkGo fuel rest
      | _ => '[' :: subLinkGo fuel rest
    else '[' :: subLinkGo fuel rest
  | fuel + 1, c :: cs => c :: subLinkGo fuel cs

def subLink (s : List Char) : List Char :=
  subLinkGo s.length s

/-! ### Heading pass (lines 764-792)

Line-by-line loop with an `in_code_block` flag: fence lines toggle the flag
and pass through; lines inside a fence pass through; outside, an
`elif` chain tests `line.strip().startswith('# ')` … `('###### ')` and on
success applies `re.sub(r'^#+ (.*)$', …)`, which only rewrites lines whose
unstripped text starts with the marker. -/

def headingMarker (k : Nat) : List Char :=
  List.replicate k '#' ++ [' ']

def headingOpenTag : Nat → List Char
  | 1 => ("<h1>").data
  | 2 => ("<h2>").data
  | 3 => ("<h3>").data
  | 4 => ("<h4>").data
  | 5 => ("<h5>").data
  | 6 => ("<h6>").data
  | _ => []

def headingCloseTag : Nat → List Char
  | 1 => ("</h1>").data
  | 2 => ("</h2>").data
  | 3 => ("</h3>").data
  | 4 => ("</h4>").data
  | 5 => ("</h5>").data
  | 6 => ("</h6>").data
  | _ => []

/-- `re.sub(r'^#{k} (.*)$', r'<hk>\1</hk>', line)` for a single line. -/
def headingRegexSub (k : Nat) (line : List Char) : List Char :=
  if (headingMarker k).isPrefixOf line then
    headingOpenTag k ++ line.drop (k + 1) ++ headingCloseTag k
  else line

/-- The `elif` chain of lines 777-790 applied to one line outside a fence. -/
def headingLineStep (line : List Char) : List Char :=
  let st := pyStrip line
  if (headingMarker 1).isPrefixOf st then headingRegexSub 1 line
  else if (headingMarker 2).isPrefixOf st then headingRegexSub 2 line
  else if (headingMarker 3).isPrefixOf st then headingRegexSub 3 line
  else if (headingMarker 4).isPrefixOf st then headingRegexSub 4 line
  else if (headingMarker 5).isPrefixOf st then headingRegexSub 5 line
  else if (headingMarker 6).isPrefixOf st then headingRegexSub 6 line
  else line

def headingPassGo : List (List Char) → Bool → List (List Char)
  | [], _ => []
  | l :: ls, inCode =>
    if fenceChars.isPrefixOf (pyStrip l) then l :: headingPassGo ls (!inCode)
    else if inCode then l :: headingPassGo ls inCode
    else headingLineStep l :: headingPassGo ls inCode

/-- The whole heading pass: split on newlines, run the loop, re-join. -/
def headingPass (content : List Char) : List Char :=
  List.intercalate ['\n'] (headingPassGo (content.splitOn '\n') false)

/-! ### Paragraph and list substitutions (lines 802-832) -/

/-- Suffix of `l` strictly after its last newline. -/
def afterLastNewline (l : List Char) : List Char :=
  (l.reverse.takeWhile (fun c => !(c == '\n'))).reverse

theorem takeWhile_length_lt_of_mem {p : Char → Bool} {l : List Char} {x : Char}
    (hx : x ∈ l) (hp : p x = false) : (l.takeWhile p).length < l.length := by
  induction l with
  | nil => simp at hx
  | cons a l ih =>
    by_cases ha : p a
    · rw [List.takeWhile_cons_of_pos ha]
      rcases List.mem_cons.mp hx with rfl | hx'
      · rw [hp] at ha; simp at ha
      · have := ih hx'
        simp
        omega
    · rw [List.takeWhile_cons_of_neg ha]
      simp

theorem afterLastNewline_length_lt {l : List Char} (h : '\n' ∈ l) :
    (afterLastNewline l).length < l.length := by
  unfold afterLastNewline
  rw [List.length_reverse]
  have hmem : '\n' ∈ l.reverse := by simpa using h
  have hlt := takeWhile_length_lt_of_mem (p := fun c => !(c == '\n')) hmem (by simp)
  simpa using hlt

/-- `re.sub(r'\n\s*\n', '</p><p>', content)`: a newline followed by a
whitespace run containing another newline; with greedy backtracking the
match extends through the last newline of the run. -/
def subBlankLinesGo : Nat → List Char → List Char
  | 0, s => s
  | _, [] => []
  | fuel + 1, '\n' :: cs =>
    let ws := cs.takeWhile isPySpace
    if '\n' ∈ ws then
      pBreakTag ++ subBlankLinesGo fuel (afterLastNewline ws ++ cs.dropWhile isPySpace)
    else '\n' :: subBlankLinesGo fuel cs
  | fuel + 1, c :: cs => c :: subBlankLinesGo fuel cs

def subBlankLines (s : List Char) : List Char :=
  subBlankLinesGo s.length s

/-- `re.sub(r'<p>\s*</p>', '', content)`: the whitespace run after `<p>`
consists of non-`<` characters, so `</p>` can only follow the full run. -/
def removeEmptyPGo : Nat → List Char → List Char
  | 0, s => s
  | _, [] => []
  | fuel + 1, '<' :: 'p' :: '>' :: cs =>
    let rest := cs.dropWhile isPySpace
    if pCloseTag.isPrefixOf rest then removeEmptyPGo fuel (rest.drop 4)
    else '<' :: removeEmptyPGo fuel ('p' :: '>' :: cs)
  | fuel + 1, c :: cs => c :: removeEmptyPGo fuel cs

def removeEmptyP (s : List Char) : List Char :=
  removeEmptyPGo s.length s

/-- Lazy `(.+?)</p>`: shortest non-empty body followed by a literal `</p>`;
returns the body and the remainder after the closing tag. -/
def lazyBody : List Char → Option (List Char × List Char)
  | [] => none
  | c :: cs =>
    if pCloseTag.isPrefixOf cs then some ([c], cs.drop 4)
    else
      match lazyBody cs with
      | some (b, r) => some (c :: b, r)
      | none => none

theorem lazyBody_length : ∀ {s b r : List Char}, lazyBody s = some (b, r) →
    r.length < s.length := by
  intro s
  induction s with
  | nil => intro b r h; simp [lazyBody] at h
  | cons c cs ih =>
    intro b r h
    rw [lazyBody] at h
    by_cases hp : pCloseTag.isPrefixOf cs
    · simp only [hp, if_pos, Option.some.injEq, Prod.mk.injEq] at h
      obtain ⟨hb, hr⟩ := h
      subst hr
      simp [List.length_drop]
      omega
    · simp only [hp, if_neg, Bool.false_eq_true, not_false_iff] at h
      cases hsp : lazyBody cs with
      | some br =>
        obtain ⟨b', r'⟩ := br
        rw [hsp] at h
        simp at h
        obtain ⟨hb, hr⟩ := h
        subst hr
        have := ih hsp
        simp
        omega
      | none => rw [hsp] at h; simp at h

/-- `re.sub(r'<p>(\d+)\.\s+(.+?)</p>', r'<li>\2</li>', content)`.  The
digit run is greedy and followed by a literal `.`; `\s+` is a greedy
whitespace run; `(.+?)` lazily extends to the first later `</p>`.  When no
`</p>` occurs strictly after the run, the engine backtracks one whitespace
character into the lazy group (possible only when the run has at least two
characters and `</p>` starts immediately after it); the captured digits are
not used by the replacement. -/
def subOrderedLiGo : Nat → List Char → List Char
  | 0, s => s
  | _, [] => []
  | fuel + 1, '<' :: 'p' :: '>' :: cs =>
    let ds := cs.takeWhile Char.isDigit
    if !ds.isEmpty then
      match cs.dropWhile Char.isDigit with
      | '.' :: r2 =>
        let ws := r2.takeWhile isPySpace
        let r3 := r2.dropWhile isPySpace
        if ws.isEmpty then '<' :: subOrderedLiGo fuel ('p' :: '>' :: cs)
        else
          match lazyBody r3 with
          | some (b, r) => liOpenTag ++ b ++ liCloseTag ++ subOrderedLiGo fuel r
          | none =>
            if 2 ≤ ws.length ∧ pCloseTag.isPrefixOf r3 then
              liOpenTag ++ [ws.getLastD ' '] ++ liCloseTag ++ subOrderedLiGo fuel (r3.drop 4)
            else '<' :: subOrderedLiGo fuel ('p' :: '>' :: cs)
      | _ => '<' :: subOrderedLiGo fuel ('p' :: '>' :: cs)
    else '<' :: subOrderedLiGo fuel ('p' :: '>' :: cs)
  | fuel + 1, c :: cs => c :: subOrderedLiGo fuel cs

def subOrderedLi (s : List Char) : List Char :=
  subOrderedLiGo s.length s

/-- `re.sub(r'<p>[-*]\s+(.+?)</p>', r'<li>\1</li>', content)`, with the
same greedy/lazy behaviour as the ordered variant. -/
def subUnorderedLiGo : Nat → List Char → List Char
  | 0, s => s
  | _, [] => []
  | fuel + 1, '<' :: 'p' :: '>' :: m :: r2 =>
    if m == '-' || m == '*' then
      let ws := r2.takeWhile isPySpace
      let r3 := r2.dropWhile isPySpace
      if ws.isEmpty then '<' :: subUnorderedLiGo fuel ('p' :: '>' :: m :: r2)
      else
        match lazyBody r3 with
        | some (b, r) => liOpenTag ++ b ++ liCloseTag ++ subUnorderedLiGo fuel r
        | none =>
          if 2 ≤ ws.length ∧ pCloseTag.isPrefixOf r3 then
            liOpenTag ++ [ws.getLastD ' '] ++ liCloseTag ++ subUnorderedLiGo fuel (r3.drop 4)
          else '<' :: subUnorderedLiGo fuel ('p' :: '>' :: m :: r2)
    else '<' :: subUnorderedLiGo fuel ('p' :: '>' :: m :: r2)
  | fuel + 1, c :: cs => c :: subUnorderedLiGo fuel cs

def subUnorderedLi (s : List Char) : List Char :=
  subUnorderedLiGo s.length s

/-! ### The `<br>`-split list-grouping loop (lines 808-832) -/

/-- Python `content.split('<br>')`. -/
def splitOnSeqGo (pat : List Char) : Nat → List Char → List (List Char)
  | 0, s => [s]
  | fuel + 1, s =>
    match splitFirst pat s with
    | some (b, r) => b :: splitOnSeqGo pat fuel r
    | none => [s]

/-- Python `content.split(pat)` for a non-empty literal separator. -/
def splitOnSeq (pat : List Char) (s : List Char) : List (List Char) :=
  if pat.isEmpty then [s] else splitOnSeqGo pat (s.length + 1) s

/-- `re.search(r'^\d+\.', line)` used to pick the list flavour. -/
def startsOrderedNum (line : List Char) : Bool :=
  !(line.takeWhile Char.isDigit).isEmpty
    && ['.'].isPrefixOf (line.dropWhile Char.isDigit)

def listOpenTagOf (lt : List Char) : List Char := '<' :: lt ++ ['>']
def listCloseTagOf (lt : List Char) : List Char := '<' :: '/' :: lt ++ ['>']

/-- The stateful grouping loop over the `<br>`-separated segments
(lines 813-830): a segment whose stripped text starts with `<li>` opens a
list (flavour decided by `re.search(r'^\d+\.', line)` on the raw segment)
if none is open; any other segment closes an open list. -/
def listGroupGo : List (List Char) → Bool → List Char → List (List Char)
  | [], inList, lt => if inList then [listCloseTagOf lt] else []
  | l :: ls, inList, lt =>
    if liOpenTag.isPrefixOf (pyStrip l) then
      if inList then l :: listGroupGo ls true lt
      else
        let lt' := if startsOrderedNum l then olChars else ulChars
        listOpenTagOf lt' :: l :: listGroupGo ls true lt'
    else
      if inList then listCloseTagOf lt :: l :: listGroupGo ls false lt
      else l :: listGroupGo ls false lt

/-! ### The per-node rendering pipeline (lines 751-832)

For a text node, `extract_node_content` returns the node's `text` field
unchanged, after which `generate_html` applies, in order: angle-bracket
escaping, the heading pass, the code-block passes (when a fence is
present), the three inline-span substitutions, the paragraph substitutions,
the two list-item substitutions and the list-grouping loop. -/

def escapeAngleBrackets (s : List Char) : List Char :=
  replaceChar '>' (("&gt;").data) (replaceChar '<' (("&lt;").data) s)

def renderNodeContent (text : List Char) : List Char :=
  let content := escapeAngleBrackets text
  let content := headingPass content
  let has_code := containsSub fenceChars content
  let content :=
    if has_code then codeBlockSub add_copy_button (clean_content_after_code content)
    else content
  let content := subBold content
  let content := subItalic content
  let content := subLink content
  let content := subBlankLines content
  let content := pOpenTag ++ content ++ pCloseTag
  let content := removeEmptyP content
  let content := replaceChar '\n' brTag content
  let content := subOrderedLi content
  let content := subUnorderedLi content
  List.intercalate brTag (listGroupGo (splitOnSeq brTag content) false [])

def countSubGo (pat : List Char) : Nat → List Char → Nat
  | 0, _ => 0
  | fuel + 1, s =>
    match splitFirst pat s with
    | some (_, r) => 1 + countSubGo pat fuel r
    | none => 0

/-- Number of occurrences of a non-empty literal pattern
(Python `str.count`). -/
def countSub (pat : List Char) (s : List Char) : Nat :=
  if pat.isEmpty then 0 else countSubGo pat (s.length + 1) s

/-! ### Edge router (the `ObsidianCanvas` JavaScript class, lines 1051-1345)

Geometry is modelled over `ℚ` (JavaScript numbers treated as exact).  Side
names are kept as the strings the code switches on; an absent
`edge.fromSide`/`edge.toSide` is an `Option.none`, and `x || 'right'`
becomes `Option.getD`.  `Math.sqrt(dx*dx + dy*dy)` is the one irrational
quantity; it is passed in as the explicit argument `dist` (theorems that
depend on it pin it down with `dist * dist = dx * dx + dy * dy ∧ 0 ≤ dist`).
The two `Math.random()` draws of `drawEdge` are passed in as `r1` (the
jitter factor draw, line 1072) and `r2` (the direction draw, lines
1124/1131). -/

structure Pt where
  x : ℚ
  y : ℚ
deriving DecidableEq

structure RectQ where
  x : ℚ
  y : ℚ
  width : ℚ
  height : ℚ
deriving DecidableEq

def sTop : String := "top"
def sBottom : String := "bottom"
def sLeft : String := "left"
def sRight : String := "right"

/-- `calculateAnchorPoint(node, targetNode, side, isArrival)` (lines
1249-1298). -/
def calculateAnchorPoint (node targetNode : RectQ) (side : String)
    (isArrival : Bool) : Pt :=
  let centerX := node.x + node.width / 2
  let centerY := node.y + node.height / 2
  let offset : ℚ := if isArrival then 30 else 0
  if side = "top" then ⟨centerX, node.y - offset⟩
  else if side = "bottom" then ⟨centerX, node.y + node.height + offset⟩
  else if side = "left" then ⟨node.x - offset, centerY⟩
  else if side = "right" then ⟨node.x + node.width + offset, centerY⟩
  else
    let dx := targetNode.x - node.x
    let dy := targetNode.y - node.y
    if |dx| > |dy| then
      if dx > 0 then ⟨node.x + node.width + offset, centerY⟩
      else ⟨node.x - offset, centerY⟩
    else
      if dy > 0 then ⟨centerX, node.y + node.height + offset⟩
      else ⟨centerX, node.y - offset⟩

/-- `createPerpendicularControlPoints(fromAnchor, toAnchor, fromSide,
toSide)` (lines 1301-1341): each control point sits 80 units outward from
its anchor along its side's normal. -/
def createPerpendicularControlPoints (fromAnchor toAnchor : Pt)
    (fromSide toSide : String) : Pt × Pt :=
  let offset : ℚ := 80
  let fromControl :=
    if fromSide = "top" then Pt.mk fromAnchor.x (fromAnchor.y - offset)
    else if fromSide = "bottom" then Pt.mk fromAnchor.x (fromAnchor.y + offset)
    else if fromSide = "left" then Pt.mk (fromAnchor.x - offset) fromAnchor.y
    else if fromSide = "right" then Pt.mk (fromAnchor.x + offset) fromAnchor.y
    else fromAnchor
  let toControl :=
    if toSide = "top" then Pt.mk toAnchor.x (toAnchor.y - offset)
    else if toSide = "bottom" then Pt.mk toAnchor.x (toAnchor.y + offset)
    else if toSide = "left" then Pt.mk (toAnchor.x - offset) toAnchor.y
    else if toSide = "right" then Pt.mk (toAnchor.x + offset) toAnchor.y
    else toAnchor
  (fromControl, toControl)

/-- `adjustArrowEndPoint(toAnchor, toSide)` (lines 1343-1345) is the
identity. -/
def adjustArrowEndPoint (toAnchor : Pt) (toSide : String) : Pt :=
  toAnchor

/-- The boolean path-shape tests of lines 1074-1080. -/
def isHorizontalPerfect (fromAnchor toAnchor : Pt) : Bool :=
  |fromAnchor.y - toAnchor.y| < 1

def isHorizontalConnection (dx dy : ℚ) : Bool :=
  |dx| > |dy| * 3

def isVerticalPerfect (fromAnchor toAnchor : Pt) : Bool :=
  |fromAnchor.x - toAnchor.x| < 1

def isVerticalConnection (dx dy : ℚ) : Bool :=
  |dy| > |dx| * 3

def sameSideConnection (fromSide toSide : String) : Bool :=
  fromSide == toSide

/-- The test of line 1084 selecting the horizontal orthogonal polyline. -/
def horizPolylineTest (fromAnchor toAnchor : Pt) (fromSide toSide : String) : Bool :=
  isHorizontalPerfect fromAnchor toAnchor
    && isHorizontalConnection (toAnchor.x - fromAnchor.x) (toAnchor.y - fromAnchor.y)
    && !sameSideConnection fromSide toSide

/-- The test of line 1094 selecting the vertical orthogonal polyline. -/
def vertPolylineTest (fromAnchor toAnchor : Pt) (fromSide toSide : String) : Bool :=
  isVerticalPerfect fromAnchor toAnchor
    && isVerticalConnection (toAnchor.x - fromAnchor.x) (toAnchor.y - fromAnchor.y)
    && !sameSideConnection fromSide toSide

/-- The drawable output of `drawEdge`: the points of the SVG `d` attribute
(either the 4-point orthogonal polyline or the start/controls/end of a
cubic) and the label position. -/
inductive EdgePath where
  | polyline : Pt → Pt → Pt → Pt → EdgePath
  | cubic : Pt → Pt → Pt → Pt → EdgePath
deriving DecidableEq

structure EdgeDraw where
  path : EdgePath
  labelX : ℚ
  labelY : ℚ
deriving DecidableEq

/-- The `direction` chosen in the cubic branch (lines 1107-1133):
deterministic for the four matching same-side pairs, otherwise decided by a
`Math.random() > 0.5` draw, modelled by `r2`. -/
def edgeDirection (fromSide toSide : String) (r2 : ℚ) : ℚ :=
  if sameSideConnection fromSide toSide then
    if fromSide = sLeft ∧ toSide = sLeft then -1
    else if fromSide = sRight ∧ toSide = sRight then 1
    else if fromSide = sTop ∧ toSide = sTop then -1
    else if fromSide = sBottom ∧ toSide = sBottom then 1
    else if r2 > 0.5 then 1 else -1
  else if r2 > 0.5 then 1 else -1

/-- The displacement magnitude of lines 1071-1073 and its same-side
rescale of line 1128: `min(dist·0.4, 60)` jittered by
`0.8 + r1·0.4`, then `min(offset·1.2, 40)` for same-side pairs. -/
def edgeOffsetValue (fromSide toSide : String) (dist r1 : ℚ) : ℚ :=
  let baseOffset := min (dist * 0.4) 60
  let randomFactor := 0.8 + r1 * 0.4
  let offset := baseOffset * randomFactor
  if sameSideConnection fromSide toSide then min (offset * 1.2) 40 else offset

/-- The central control point computed (lines 1135-1149) in the cubic
branch: the chord midpoint displaced perpendicularly by the jittered
offset. -/
def edgeMidControl (fromNode toNode : RectQ) (edgeFromSide edgeToSide : Option String)
    (dist r1 r2 : ℚ) : Pt :=
  let fromSide := edgeFromSide.getD sRight
  let toSide := edgeToSide.getD sLeft
  let fromAnchor := calculateAnchorPoint fromNode toNode fromSide false
  let toAnchor := calculateAnchorPoint toNode fromNode toSide true
  let midX := (fromAnchor.x + toAnchor.x) / 2
  let midY := (fromAnchor.y + toAnchor.y) / 2
  let dx := toAnchor.x - fromAnchor.x
  let dy := toAnchor.y - fromAnchor.y
  let direction := edgeDirection fromSide toSide r2
  let offset := edgeOffsetValue fromSide toSide dist r1
  let perpX := if |dx| > |dy| then 0 else direction * offset
  let perpY := if |dx| > |dy| then direction * offset else 0
  ⟨midX + perpX, midY + perpY⟩

/-- The geometric part of `drawEdge(edge)` (lines 1051-1175), given the two
endpoint rectangles: anchors, path-shape selection, path points and label
point.  The central control point is computed exactly as in the source;
the emitted path, however, is built from `fromAnchor`, the two
perpendicular control points and `adjustArrowEndPoint(toAnchor)` only. -/
def drawEdgeGeom (fromNode toNode : RectQ) (edgeFromSide edgeToSide : Option String)
    (dist r1 r2 : ℚ) : EdgeDraw :=
  let fromAnchor := calculateAnchorPoint fromNode toNode (edgeFromSide.getD sRight) false
  let toAnchor := calculateAnchorPoint toNode fromNode (edgeToSide.getD sLeft) true
  let midX := (fromAnchor.x + toAnchor.x) / 2
  let midY := (fromAnchor.y + toAnchor.y) / 2
  let dx := toAnchor.x - fromAnchor.x
  let dy := toAnchor.y - fromAnchor.y
  let fromSide := edgeFromSide.getD sRight
  let toSide := edgeToSide.getD sLeft
  if horizPolylineTest fromAnchor toAnchor fromSide toSide then
    let controlPoints := createPerpendicularControlPoints fromAnchor toAnchor fromSide toSide
    ⟨EdgePath.polyline fromAnchor controlPoints.1 controlPoints.2 toAnchor,
      (fromAnchor.x + toAnchor.x) / 2, fromAnchor.y⟩
  else if vertPolylineTest fromAnchor toAnchor fromSide toSide then
    let controlPoints := createPerpendicularControlPoints fromAnchor toAnchor fromSide toSide
    ⟨EdgePath.polyline fromAnchor controlPoints.1 controlPoints.2 toAnchor,
      fromAnchor.x, (fromAnchor.y + toAnchor.y) / 2⟩
  else
    let controlPoints := createPerpendicularControlPoints fromAnchor toAnchor fromSide toSide
    let direction := edgeDirection fromSide toSide r2
    let offset := edgeOffsetValue fromSide toSide dist r1
    let perpX := if |dx| > |dy| then 0 else direction * offset
    let perpY := if |dx| > |dy| then direction * offset else 0
    let midControlX := midX + perpX
    let midControlY := midY + perpY
    let adjustedEndPoint := adjustArrowEndPoint toAnchor toSide
    let t : ℚ := 0.5
    let oneMinusT := 1 - t
    let oneMinusTSquared := oneMinusT * oneMinusT
    let oneMinusTCubed := oneMinusTSquared * oneMinusT
    let tSquared := t * t
    let tCubed := tSquared * t
    let labelX := oneMinusTCubed * fromAnchor.x
      + 3 * oneMinusTSquared * t * controlPoints.1.x
      + 3 * oneMinusT * tSquared * controlPoints.2.x
      + tCubed * adjustedEndPoint.x
    let labelY := oneMinusTCubed * fromAnchor.y
      + 3 * oneMinusTSquared * t * controlPoints.1.y
      + 3 * oneMinusT * tSquared * controlPoints.2.y
      + tCubed * adjustedEndPoint.y
    ⟨EdgePath.cubic fromAnchor controlPoints.1 controlPoints.2 adjustedEndPoint,
      labelX, labelY⟩

/-- An edge record as read from the document: endpoint ids and optional
declared sides. -/
structure EdgeRec where
  fromNode : String
  toNode : String
  fromSide : Option String
  toSide : Option String

/-- `drawEdge` including the endpoint lookup of lines 1052-1058: an edge
whose endpoint id is missing from the node list draws nothing. -/
def drawEdge (nodes : List (String × RectQ)) (edge : EdgeRec)
    (dist r1 r2 : ℚ) : Option EdgeDraw :=
  match nodes.find? (fun p => p.1 == edge.fromNode),
      nodes.find? (fun p => p.1 == edge.toNode) with
  | some f, some t =>
    some (drawEdgeGeom f.2 t.2 edge.fromSide edge.toSide dist r1 r2)
  | _, _ => none

/-- The standard Bernstein-basis evaluation of a cubic Bézier curve at
parameter `t` — the specification-side formula for the label point. -/
def bezierPoint (t : ℚ) (p0 p1 p2 p3 : Pt) : Pt :=
  ⟨(1 - t) ^ 3 * p0.x + 3 * (1 - t) ^ 2 * t * p1.x
      + 3 * (1 - t) * t ^ 2 * p2.x + t ^ 3 * p3.x,
    (1 - t) ^ 3 * p0.y + 3 * (1 - t) ^ 2 * t * p1.y
      + 3 * (1 - t) * t ^ 2 * p2.y + t ^ 3 * p3.y⟩

/-- Specification-side stand-off: displace a point 30 units outward from
the declared side. -/
def standOffOutward (side : String) (d : ℚ) (p : Pt) : Pt :=
  if side = "top" then ⟨p.x, p.y - d⟩
  else if side = "bottom" then ⟨p.x, p.y + d⟩
  else if side = "left" then ⟨p.x - d, p.y⟩
  else if side = "right" then ⟨p.x + d, p.y⟩
  else p

/-! ### Layout engine (lines 129-160 and 191-219), over `ℝ` -/

structure NodeR where
  x : ℝ
  y : ℝ
  width : ℝ
  height : ℝ

/-- `filter_main_nodes(nodes)` (lines 129-160): for more than two nodes,
keep (in order of increasing distance) the nodes whose center is within
`mean + 1.5·stddev` of the centroid of the centers; otherwise return the
input unchanged. -/
noncomputable def filter_main_nodes (nodes : List NodeR) : List NodeR :=
  if nodes.length ≤ 1 then nodes
  else
    let center_x := (nodes.map (fun n => n.x + n.width / 2)).sum / (nodes.length : ℝ)
    let center_y := (nodes.map (fun n => n.y + n.height / 2)).sum / (nodes.length : ℝ)
    let distances := nodes.map (fun n =>
      (Real.sqrt ((n.x + n.width / 2 - center_x) ^ 2
        + (n.y + n.height / 2 - center_y) ^ 2), n))
    let sorted := distances.mergeSort (fun a b => decide (a.1 ≤ b.1))
    if 2 < sorted.length then
      let mean_distance := (sorted.map (fun d => d.1)).sum / (sorted.length : ℝ)
      let variance := (sorted.map (fun d => (d.1 - mean_distance) ^ 2)).sum / (sorted.length : ℝ)
      let std_deviation := Real.sqrt variance
      let threshold := mean_distance + 1.5 * std_deviation
      (sorted.filter (fun d => decide (d.1 ≤ threshold))).map (fun d => d.2)
    else nodes

/-- Specification-side centroid of the node-center points. -/
noncomputable def centroidX (nodes : List NodeR) : ℝ :=
  (nodes.map (fun n => n.x + n.width / 2)).sum / (nodes.length : ℝ)

noncomputable def centroidY (nodes : List NodeR) : ℝ :=
  (nodes.map (fun n => n.y + n.height / 2)).sum / (nodes.length : ℝ)

/-- Specification-side Euclidean distance of a node's center from the
centroid. -/
noncomputable def nodeDistance (nodes : List NodeR) (n : NodeR) : ℝ :=
  Real.sqrt ((n.x + n.width / 2 - centroidX nodes) ^ 2
    + (n.y + n.height / 2 - centroidY nodes) ^ 2)

/-- Specification-side mean of the distances. -/
noncomputable def meanDistance (nodes : List NodeR) : ℝ :=
  (nodes.map (nodeDistance nodes)).sum / (nodes.length : ℝ)

/-- Specification-side population standard deviation of the distances. -/
noncomputable def stdDistance (nodes : List NodeR) : ℝ :=
  Real.sqrt ((nodes.map (fun n => (nodeDistance nodes n - meanDistance nodes) ^ 2)).sum
    / (nodes.length : ℝ))

/-- Specification-side outlier threshold `mean + 1.5 · stddev`. -/
noncomputable def distanceThreshold (nodes : List NodeR) : ℝ :=
  meanDistance nodes + 1.5 * stdDistance nodes

/-- The canvas extent derived by `generate_html` (lines 205-219): width,
height and the offsets applied to every node position. -/
structure Extent where
  width : ℝ
  height : ℝ
  offsetX : ℝ
  offsetY : ℝ

def listMinR : List ℝ → ℝ
  | [] => 0
  | x :: xs => xs.foldl min x

def listMaxR : List ℝ → ℝ
  | [] => 0
  | x :: xs => xs.foldl max x

/-- The extent computation of `generate_html` (lines 191-219): bounding box
of the filtered node set (all nodes when the filtered set is empty),
`margin = 200` on all sides, `title_margin = 100` extra on top, width and
height clamped up to `2000 × 1500`; an empty node set yields the minimum
canvas with zero offsets. -/
noncomputable def computeExtent (nodes : List NodeR) : Extent :=
  match nodes with
  | [] => ⟨2000, 1500, 0, 0⟩
  | _ :: _ =>
    let main_nodes := filter_main_nodes nodes
    let box : ℝ × ℝ × ℝ × ℝ :=
      match main_nodes with
      | [] =>
        (listMinR (nodes.map (fun n => n.x)),
          listMaxR (nodes.map (fun n => n.x + n.width)),
          listMinR (nodes.map (fun n => n.y)),
          listMaxR (nodes.map (fun n => n.y + n.height)))
      | _ :: _ =>
        (listMinR (main_nodes.map (fun n => n.x)),
          listMaxR (main_nodes.map (fun n => n.x + n.width)),
          listMinR (main_nodes.map (fun n => n.y)),
          listMaxR (main_nodes.map (fun n => n.y + n.height)))
    let min_x := box.1
    let max_x := box.2.1
    let min_y := box.2.2.1
    let max_y := box.2.2.2
    let margin : ℝ := 200
    let title_margin : ℝ := 100
    let canvas_width := max_x - min_x + margin * 2
    let canvas_height := max_y - min_y + margin * 2 + title_margin
    let canvas_width := max canvas_width 2000
    let canvas_height := max canvas_height 1500
    ⟨canvas_width, canvas_height, -min_x + margin, -min_y + margin + title_margin⟩

/-- Specification-side extent formula for a (non-empty) node set: bounding
box plus the primary margin on all sides plus the title margin on top,
clamped up to the minimum canvas size, with
`offsetX = -minX + marginPrimary`, `offsetY = -minY + marginPrimary +
marginTitle`. -/
noncomputable def extentFormula (m : List NodeR) : Extent :=
  let min_x := listMinR (m.map (fun n => n.x))
  let max_x := listMaxR (m.map (fun n => n.x + n.width))
  let min_y := listMinR (m.map (fun n => n.y))
  let max_y := listMaxR (m.map (fun n => n.y + n.height))
  ⟨max (max_x - min_x + 200 * 2) 2000,
    max (max_y - min_y + 200 * 2 + 100) 1500,
    -min_x + 200,
    -min_y + 200 + 100⟩

/-! ### Concrete fixtures used by witnesses and counterexamples -/

def specRectA : RectQ := ⟨0, 0, 100, 50⟩
def specRectB : RectQ := ⟨300, 0, 100, 50⟩

/-- A second rectangle placed so that the right-right connection between
`specRectA` and `specRectC` falls in the cubic branch with anchor delta
`(30, 40)`, whose Euclidean length is exactly `50`. -/
def specRectC : RectQ := ⟨0, 40, 100, 50⟩

/-- C7: for `A{x:0,y:0,w:100,h:50}` and `B{x:300,y:0,w:100,h:50}` with
sides `(right,left)`, the departure anchor is `(100,25)` and the arrival
anchor `(270,25)`; in general, for every declared side the arrival anchor
is the departure anchor displaced 30 units outward from that side, and the
departure anchor has no stand-off. -/
theorem calculateAnchorPoint_standoff_c7 :
    (calculateAnchorPoint specRectA specRectB sRight false = ⟨100, 25⟩
      ∧ calculateAnchorPoint specRectB specRectA sLeft true = ⟨270, 25⟩)
    ∧ ∀ (node targetNode : RectQ) (side : String),
        side ∈ [sTop, sBottom, sLeft, sRight] →
        calculateAnchorPoint node targetNode side true
          = standOffOutward side 30 (calculateAnchorPoint node targetNode side false) := by
  constructor
  · constructor <;>
      (rw [calculateAnchorPoint]
       simp only [sRight, sLeft, String.reduceEq, reduceIte]
       norm_num [specRectA, specRectB, Pt.mk.injEq])
  · intro node targetNode side hs
    simp only [List.mem_cons, List.not_mem_nil, or_false] at hs
    rcases hs with rfl | rfl | rfl | rfl <;>
      (rw [calculateAnchorPoint, calculateAnchorPoint, standOffOutward]
       simp only [sTop, sBottom, sLeft, sRight, String.reduceEq, reduceIte]
       simp [Pt.mk.injEq])

/-- Witness for C7 at a concrete input. -/
theorem calculateAnchorPoint_standoff_c7_witness :
    sRight ∈ [sTop, sBottom, sLeft, sRight]
    ∧ calculateAnchorPoint specRectA specRectC sRight true
        = standOffOutward sRight 30 (calculateAnchorPoint specRectA specRectC sRight false) :=
  ⟨by decide, calculateAnchorPoint_standoff_c7.2 specRectA specRectC sRight (by decide)⟩

/-- C3: the drawn edge geometry is a pure function of the board data — the
two `Math.random()` draws of `drawEdge` never reach the emitted path or
label, so re-rendering with any other draws yields identical output (the
Python side of the render is random-free, so this is the only possible
source of nondeterminism in a full render). -/
theorem drawEdge_deterministic_c3 (nodes : List (String × RectQ)) (edge : EdgeRec)
    (dist r1 r2 r1' r2' : ℚ) :
    drawEdge nodes edge dist r1 r2 = drawEdge nodes edge dist r1' r2' := by
  unfold drawEdge
  cases nodes.find? (fun p => p.1 == edge.fromNode) with
  | none => rfl
  | some f =>
    cases nodes.find? (fun p => p.1 == edge.toNode) with
    | none => rfl
    | some t => rfl

/-- C9: whenever the emitted path is a cubic, the label point is exactly
the Bernstein-basis evaluation at `t = 0.5` of that cubic's four control
points (not the chord midpoint). -/
theorem edgeLabel_bezier_half_c9 (fromNode toNode : RectQ)
    (edgeFromSide edgeToSide : Option String) (dist r1 r2 : ℚ) (p0 p1 p2 p3 : Pt)
    (h : (drawEdgeGeom fromNode toNode edgeFromSide edgeToSide dist r1 r2).path
        = EdgePath.cubic p0 p1 p2 p3) :
    Pt.mk (drawEdgeGeom fromNode toNode edgeFromSide edgeToSide dist r1 r2).labelX
        (drawEdgeGeom fromNode toNode edgeFromSide edgeToSide dist r1 r2).labelY
      = bezierPoint (1 / 2) p0 p1 p2 p3 := by
  simp only [drawEdgeGeom] at h ⊢
  split_ifs at h ⊢ with h1 h2
  simp only [EdgePath.cubic.injEq] at h
  obtain ⟨e0, e1, e2, e3⟩ := h
  subst e0; subst e1; subst e2; subst e3
  simp only [bezierPoint, adjustArrowEndPoint, Pt.mk.injEq]
  constructor <;> ring_nf

/-- Witness for C9: the right-right connection between `specRectA` and
`specRectC` is drawn as a cubic, and its label sits at the Bézier midpoint
`(175, 45)` rather than the chord midpoint `(115, 45)`. -/
theorem edgeLabel_bezier_half_c9_witness :
    (drawEdgeGeom specRectA specRectC (some sRight) (some sRight) 50 0 0).path
        = EdgePath.cubic ⟨100, 25⟩ ⟨180, 25⟩ ⟨210, 65⟩ ⟨130, 65⟩
    ∧ Pt.mk (drawEdgeGeom specRectA specRectC (some sRight) (some sRight) 50 0 0).labelX
          (drawEdgeGeom specRectA specRectC (some sRight) (some sRight) 50 0 0).labelY
        = bezierPoint (1 / 2) ⟨100, 25⟩ ⟨180, 25⟩ ⟨210, 65⟩ ⟨130, 65⟩ := by
  have hpath : (drawEdgeGeom specRectA specRectC (some sRight) (some sRight) 50 0 0).path
      = EdgePath.cubic ⟨100, 25⟩ ⟨180, 25⟩ ⟨210, 65⟩ ⟨130, 65⟩ := by
    simp only [drawEdgeGeom, Option.getD_some]
    rw [calculateAnchorPoint, calculateAnchorPoint]
    simp only [sRight, sLeft, String.reduceEq, reduceIte]
    norm_num [specRectA, specRectC, horizPolylineTest, vertPolylineTest,
      isHorizontalPerfect, isHorizontalConnection, isVerticalPerfect,
      isVerticalConnection, sameSideConnection, createPerpendicularControlPoints,
      adjustArrowEndPoint, Pt.mk.injEq, EdgePath.cubic.injEq]
    simp only [String.reduceEq, reduceIte]
    norm_num [Pt.mk.injEq]
  exact ⟨hpath,
    edgeLabel_bezier_half_c9 specRectA specRectC (some sRight) (some sRight) 50 0 0
      ⟨100, 25⟩ ⟨180, 25⟩ ⟨210, 65⟩ ⟨130, 65⟩ hpath⟩

/-- C2 (amended): in the cubic branch the code computes the jittered
perpendicular displacement (`edgeOffsetValue`, `edgeDirection`,
`edgeMidControl`) exactly as the specification describes, but the drawn
path does not include it: the emitted cubic runs from the departure anchor
through the two fixed 80-unit perpendicular control points to the arrival
anchor, for every value of `dist`, `r1` and `r2`. -/
theorem cubic_path_no_displacement_c2 (fromNode toNode : RectQ)
    (edgeFromSide edgeToSide : Option String) (dist r1 r2 : ℚ)
    (hh : horizPolylineTest
        (calculateAnchorPoint fromNode toNode (edgeFromSide.getD sRight) false)
        (calculateAnchorPoint toNode fromNode (edgeToSide.getD sLeft) true)
        (edgeFromSide.getD sRight) (edgeToSide.getD sLeft) = false)
    (hv : vertPolylineTest
        (calculateAnchorPoint fromNode toNode (edgeFromSide.getD sRight) false)
        (calculateAnchorPoint toNode fromNode (edgeToSide.getD sLeft) true)
        (edgeFromSide.getD sRight) (edgeToSide.getD sLeft) = false) :
    (drawEdgeGeom fromNode toNode edgeFromSide edgeToSide dist r1 r2).path
      = EdgePath.cubic
          (calculateAnchorPoint fromNode toNode (edgeFromSide.getD sRight) false)
          (createPerpendicularControlPoints
            (calculateAnchorPoint fromNode toNode (edgeFromSide.getD sRight) false)
            (calculateAnchorPoint toNode fromNode (edgeToSide.getD sLeft) true)
            (edgeFromSide.getD sRight) (edgeToSide.getD sLeft)).1
          (createPerpendicularControlPoints
            (calculateAnchorPoint fromNode toNode (edgeFromSide.getD sRight) false)
            (calculateAnchorPoint toNode fromNode (edgeToSide.getD sLeft) true)
            (edgeFromSide.getD sRight) (edgeToSide.getD sLeft)).2
          (calculateAnchorPoint toNode fromNode (edgeToSide.getD sLeft) true) := by
  simp only [drawEdgeGeom, hh, hv, Bool.false_eq_true, if_false, adjustArrowEndPoint]

/-- Witness for C2's amended theorem at a concrete cubic-branch input. -/
theorem cubic_path_no_displacement_c2_witness :
    (horizPolylineTest
        (calculateAnchorPoint specRectA specRectC ((some sRight).getD sRight) false)
        (calculateAnchorPoint specRectC specRectA ((some sRight).getD sLeft) true)
        ((some sRight).getD sRight) ((some sRight).getD sLeft) = false)
    ∧ (vertPolylineTest
        (calculateAnchorPoint specRectA specRectC ((some sRight).getD sRight) false)
        (calculateAnchorPoint specRectC specRectA ((some sRight).getD sLeft) true)
        ((some sRight).getD sRight) ((some sRight).getD sLeft) = false)
    ∧ (drawEdgeGeom specRectA specRectC (some sRight) (some sRight) 50 0 0).path
      = EdgePath.cubic
          (calculateAnchorPoint specRectA specRectC ((some sRight).getD sRight) false)
          (createPerpendicularControlPoints
            (calculateAnchorPoint specRectA specRectC ((some sRight).getD sRight) false)
            (calculateAnchorPoint specRectC specRectA ((some sRight).getD sLeft) true)
            ((some sRight).getD sRight) ((some sRight).getD sLeft)).1
          (createPerpendicularControlPoints
            (calculateAnchorPoint specRectA specRectC ((some sRight).getD sRight) false)
            (calculateAnchorPoint specRectC specRectA ((some sRight).getD sLeft) true)
            ((some sRight).getD sRight) ((some sRight).getD sLeft)).2
          (calculateAnchorPoint specRectC specRectA ((some sRight).getD sLeft) true) := by
  have hh : horizPolylineTest
      (calculateAnchorPoint specRectA specRectC ((some sRight).getD sRight) false)
      (calculateAnchorPoint specRectC specRectA ((some sRight).getD sLeft) true)
      ((some sRight).getD sRight) ((some sRight).getD sLeft) = false := by
    rw [calculateAnchorPoint, calculateAnchorPoint]
    simp only [Option.getD_some, sRight, sLeft, String.reduceEq, reduceIte]
    norm_num [specRectA, specRectC, horizPolylineTest, isHorizontalPerfect,
      isHorizontalConnection, sameSideConnection]
  have hv : vertPolylineTest
      (calculateAnchorPoint specRectA specRectC ((some sRight).getD sRight) false)
      (calculateAnchorPoint specRectC specRectA ((some sRight).getD sLeft) true)
      ((some sRight).getD sRight) ((some sRight).getD sLeft) = false := by
    rw [calculateAnchorPoint, calculateAnchorPoint]
    simp only [Option.getD_some, sRight, sLeft, String.reduceEq, reduceIte]
    norm_num [specRectA, specRectC, vertPolylineTest, isVerticalPerfect,
      isVerticalConnection, sameSideConnection]
  exact ⟨hh, hv,
    cubic_path_no_displacement_c2 specRectA specRectC (some sRight) (some sRight)
      50 0 0 hh hv⟩

/-- Counterexample for C2 as stated: for the concrete right-right edge from
`specRectA` to `specRectC` (anchor delta `(30,40)`, distance 50) the code
computes the displaced midpoint `(134.2, 45)` — chord midpoint `(115, 45)`
plus the capped, jittered offset `19.2` — yet the drawn path is identical
for different jitter draws, its four points are exactly the perpendicular
control cubic `(100,25) (180,25) (210,65) (130,65)`, none of which is the
displaced midpoint, and the point the curve passes through at `t = 0.5` is
`(175, 45) ≠ (134.2, 45)`: the displacement is not part of the drawn
path. -/
theorem drawEdge_displacement_unused_c2_counterexample :
    drawEdgeGeom specRectA specRectC (some sRight) (some sRight) 50 0 0
        = drawEdgeGeom specRectA specRectC (some sRight) (some sRight) 50 (1 / 2) (3 / 4)
    ∧ edgeMidControl specRectA specRectC (some sRight) (some sRight) 50 0 0
        = ⟨134.2, 45⟩
    ∧ (drawEdgeGeom specRectA specRectC (some sRight) (some sRight) 50 0 0).path
        = EdgePath.cubic ⟨100, 25⟩ ⟨180, 25⟩ ⟨210, 65⟩ ⟨130, 65⟩
    ∧ (⟨134.2, 45⟩ : Pt) ∉ ([⟨100, 25⟩, ⟨180, 25⟩, ⟨210, 65⟩, ⟨130, 65⟩] : List Pt)
    ∧ bezierPoint (1 / 2) ⟨100, 25⟩ ⟨180, 25⟩ ⟨210, 65⟩ ⟨130, 65⟩ ≠ ⟨134.2, 45⟩ := by
  refine ⟨rfl, ?_, ?_, ?_, ?_⟩
  · rw [edgeMidControl, calculateAnchorPoint, calculateAnchorPoint]
    simp only [Option.getD_some, sRight, sLeft, String.reduceEq, reduceIte]
    rw [edgeDirection, edgeOffsetValue]
    simp only [sameSideConnection, sRight, sLeft, sTop, sBottom, String.reduceEq,
      String.reduceBEq, reduceIte]
    norm_num [specRectA, specRectC, Pt.mk.injEq, min_def]
  · simp only [drawEdgeGeom, Option.getD_some]
    rw [calculateAnchorPoint, calculateAnchorPoint]
    simp only [sRight, sLeft, String.reduceEq, reduceIte]
    norm_num [specRectA, specRectC, horizPolylineTest, vertPolylineTest,
      isHorizontalPerfect, isHorizontalConnection, isVerticalPerfect,
      isVerticalConnection, sameSideConnection, createPerpendicularControlPoints,
      adjustArrowEndPoint, Pt.mk.injEq, EdgePath.cubic.injEq]
    simp only [String.reduceEq, reduceIte]
    norm_num [Pt.mk.injEq]
  · norm_num [Pt.mk.injEq]
  · norm_num [bezierPoint, Pt.mk.injEq]

/-! ### Markup-renderer claims -/

/-- The node text of the specification's code-block round-trip example. -/
def c1NodeText : List Char := ("```python\nprint(\"**not bold**\")\n```").data

set_option maxHeartbeats 3000000 in
/-- C1: the code-block invariant fails.  For the node text
` ```python / print("**not bold**") / ``` ` the rendered output contains
`<strong>not bold</strong>` — the bold inline substitution was applied
inside the code region (the inline and paragraph passes of lines 799-805
run over the whole string after the region has been replaced by its
`<pre>` scaffolding) — and the original body line no longer occurs
verbatim anywhere in the output. -/
theorem code_region_transformed_c1 :
    containsSub (("<strong>not bold</strong>").data) (renderNodeContent c1NodeText) = true
    ∧ containsSub (("print(\"**not bold**\")").data) (renderNodeContent c1NodeText)
        = false := by
  constructor <;> decide

/-- The node text of the specification's list-grouping example: three
consecutive bullet lines followed by a blank line. -/
def c4NodeText : List Char := ("- a\n- b\n- c\n\n").data

set_option maxHeartbeats 1000000 in
/-- Counterexample for C4 as stated: the render of `- a\n- b\n- c\n\n`
contains exactly one `<li>` (and one `<ul>`), not an unordered list of
three items — the `<p>[-*]\s+(.+?)</p>` substitution sees the three bullet
lines as a single paragraph and produces a single item. -/
theorem list_grouping_c4_counterexample :
    countSub liOpenTag (renderNodeContent c4NodeText) = 1
    ∧ countSub (listOpenTagOf ulChars) (renderNodeContent c4NodeText) = 1 := by
  constructor <;> decide

set_option maxHeartbeats 1000000 in
/-- C4 (amended): three consecutive bullet lines followed by a blank line
render as one unordered-list opening containing a single list item whose
body is the three lines' text joined by `<br>` with the later bullet
markers kept verbatim, the list being closed right after the item's first
`<br>` segment; bullet lines become separate items of one list only when
separated by blank lines. -/
theorem list_grouping_actual_c4 :
    renderNodeContent c4NodeText = ("<ul><br><li>a<br></ul><br>- b<br>- c</li>").data := by
  decide

/-! ### Layout-engine claims -/

/-- Both the `len(nodes) <= 1` early return and the `len(distances) > 2`
else-branch return the original list unchanged. -/
theorem filter_main_nodes_of_length_le_two (nodes : List NodeR) (h : nodes.length ≤ 2) :
    filter_main_nodes nodes = nodes := by
  unfold filter_main_nodes
  by_cases h1 : nodes.length ≤ 1
  · rw [if_pos h1]
  · rw [if_neg h1]
    have hlen : ((nodes.map (fun n =>
        (Real.sqrt ((n.x + n.width / 2
            - (nodes.map (fun n => n.x + n.width / 2)).sum / (nodes.length : ℝ)) ^ 2
          + (n.y + n.height / 2
            - (nodes.map (fun n => n.y + n.height / 2)).sum / (nodes.length : ℝ)) ^ 2), n))).mergeSort
          (fun a b => decide (a.1 ≤ b.1))).length = nodes.length := by
      rw [List.length_mergeSort, List.length_map]
    simp only [hlen]
    rw [if_neg (by omega)]

/-- C8: with at most two nodes, `filter_main_nodes` returns its input
unchanged (same nodes, same order). -/
theorem filter_main_nodes_le_two_c8 (nodes : List NodeR) (h : nodes.length ≤ 2) :
    filter_main_nodes nodes = nodes :=
  filter_main_nodes_of_length_le_two nodes h

/-- Witness for C8 on a concrete two-node list. -/
theorem filter_main_nodes_le_two_c8_witness :
    ([⟨0, 0, 100, 50⟩, ⟨300, 0, 100, 50⟩] : List NodeR).length ≤ 2
    ∧ filter_main_nodes [⟨0, 0, 100, 50⟩, ⟨300, 0, 100, 50⟩]
        = [⟨0, 0, 100, 50⟩, ⟨300, 0, 100, 50⟩] :=
  ⟨by decide, filter_main_nodes_le_two_c8 _ (by decide)⟩

/-- Sorting the `(distance, node)` pairs and then filtering on the distance
component returns, up to permutation, the input filtered on its distance. -/
theorem sortFilterMap_perm (g : NodeR → ℝ) (T : ℝ) (nodes : List NodeR) :
    ((((nodes.map (fun n => (g n, n))).mergeSort (fun a b => decide (a.1 ≤ b.1))).filter
        (fun d => decide (d.1 ≤ T))).map (fun d => d.2)).Perm
      (nodes.filter (fun n => decide (g n ≤ T))) := by
  have hperm : (((nodes.map (fun n => (g n, n))).mergeSort
      (fun a b => decide (a.1 ≤ b.1))).filter (fun d => decide (d.1 ≤ T))).Perm
      ((nodes.map (fun n => (g n, n))).filter (fun d => decide (d.1 ≤ T))) :=
    (List.mergeSort_perm (nodes.map (fun n => (g n, n)))
      (fun a b => decide (a.1 ≤ b.1))).filter _
  have h2 := hperm.map (fun d : ℝ × NodeR => d.2)
  rw [List.filter_map, List.map_map] at h2
  have h3 : ((fun d : ℝ × NodeR => d.2) ∘ fun n => (g n, n)) = fun n : NodeR => n := rfl
  have h4 : ((fun d : ℝ × NodeR => decide (d.1 ≤ T)) ∘ fun n => (g n, n))
      = fun n => decide (g n ≤ T) := rfl
  simpa [h3, h4] using h2

/-- C5: for more than two nodes, `filter_main_nodes` computes the centroid
of node centers, each center's Euclidean distance from it, the mean and
population standard deviation of those distances, and returns — up to the
sort order — exactly the nodes whose distance is at most
`mean + 1.5 · stddev`. -/
theorem filter_main_nodes_spec_c5 (nodes : List NodeR) (h : 2 < nodes.length) :
    (filter_main_nodes nodes).Perm
      (nodes.filter (fun n => decide (nodeDistance nodes n ≤ distanceThreshold nodes))) := by
  have h1 : ¬ nodes.length ≤ 1 := by omega
  unfold filter_main_nodes
  rw [if_neg h1]
  have hd : (fun n : NodeR => (Real.sqrt ((n.x + n.width / 2
        - (nodes.map (fun n => n.x + n.width / 2)).sum / (nodes.length : ℝ)) ^ 2
      + (n.y + n.height / 2
        - (nodes.map (fun n => n.y + n.height / 2)).sum / (nodes.length : ℝ)) ^ 2), n))
      = (fun n => (nodeDistance nodes n, n)) := rfl
  simp only [hd]
  set sorted := (nodes.map (fun n => (nodeDistance nodes n, n))).mergeSort
    (fun a b => decide (a.1 ≤ b.1)) with hsorted
  have hlen : sorted.length = nodes.length := by
    rw [hsorted, List.length_mergeSort, List.length_map]
  rw [if_pos (by omega)]
  have hsort : sorted.Perm (nodes.map (fun n => (nodeDistance nodes n, n))) :=
    List.mergeSort_perm _ _
  have hsum1 : (sorted.map (fun d => d.1)).sum = (nodes.map (nodeDistance nodes)).sum := by
    rw [(hsort.map (fun d : ℝ × NodeR => d.1)).sum_eq, List.map_map]
    rfl
  have hmean : (sorted.map (fun d => d.1)).sum / (sorted.length : ℝ)
      = meanDistance nodes := by
    rw [hsum1, hlen]; rfl
  rw [hmean]
  have hvar : (sorted.map (fun d => (d.1 - meanDistance nodes) ^ 2)).sum
      = (nodes.map (fun n => (nodeDistance nodes n - meanDistance nodes) ^ 2)).sum := by
    rw [(hsort.map (fun d : ℝ × NodeR => (d.1 - meanDistance nodes) ^ 2)).sum_eq,
      List.map_map]
    rfl
  rw [hvar, hlen]
  have hthr : meanDistance nodes + 1.5 * Real.sqrt
      ((nodes.map (fun n => (nodeDistance nodes n - meanDistance nodes) ^ 2)).sum
        / (nodes.length : ℝ)) = distanceThreshold nodes := rfl
  rw [hthr]
  exact sortFilterMap_perm (nodeDistance nodes) (distanceThreshold nodes) nodes

/-- Witness for C5 on a concrete three-node list. -/
theorem filter_main_nodes_spec_c5_witness :
    2 < ([⟨0, 0, 100, 50⟩, ⟨300, 0, 100, 50⟩, ⟨0, 300, 100, 50⟩] : List NodeR).length
    ∧ (filter_main_nodes [⟨0, 0, 100, 50⟩, ⟨300, 0, 100, 50⟩, ⟨0, 300, 100, 50⟩]).Perm
        (([⟨0, 0, 100, 50⟩, ⟨300, 0, 100, 50⟩, ⟨0, 300, 100, 50⟩] : List NodeR).filter
          (fun n => decide (nodeDistance [⟨0, 0, 100, 50⟩, ⟨300, 0, 100, 50⟩, ⟨0, 300, 100, 50⟩] n
            ≤ distanceThreshold [⟨0, 0, 100, 50⟩, ⟨300, 0, 100, 50⟩, ⟨0, 300, 100, 50⟩]))) :=
  ⟨by decide, filter_main_nodes_spec_c5 _ (by decide)⟩

/-- Closed form of the `len(distances) > 2` branch of `filter_main_nodes`. -/
theorem filter_main_nodes_of_length_gt_two (nodes : List NodeR) (h : 2 < nodes.length) :
    filter_main_nodes nodes
      = (((nodes.map (fun n => (nodeDistance nodes n, n))).mergeSort
          (fun a b => decide (a.1 ≤ b.1))).filter
            (fun d => decide (d.1 ≤ distanceThreshold nodes))).map (fun d => d.2) := by
  have h1 : ¬ nodes.length ≤ 1 := by omega
  unfold filter_main_nodes
  rw [if_neg h1]
  have hd : (fun n : NodeR => (Real.sqrt ((n.x + n.width / 2
        - (nodes.map (fun n => n.x + n.width / 2)).sum / (nodes.length : ℝ)) ^ 2
      + (n.y + n.height / 2
        - (nodes.map (fun n => n.y + n.height / 2)).sum / (nodes.length : ℝ)) ^ 2), n))
      = (fun n => (nodeDistance nodes n, n)) := rfl
  simp only [hd]
  set sorted := (nodes.map (fun n => (nodeDistance nodes n, n))).mergeSort
    (fun a b => decide (a.1 ≤ b.1)) with hsorted
  have hlen : sorted.length = nodes.length := by
    rw [hsorted, List.length_mergeSort, List.length_map]
  rw [if_pos (by omega)]
  have hsort : sorted.Perm (nodes.map (fun n => (nodeDistance nodes n, n))) :=
    List.mergeSort_perm _ _
  have hsum1 : (sorted.map (fun d => d.1)).sum = (nodes.map (nodeDistance nodes)).sum := by
    rw [(hsort.map (fun d : ℝ × NodeR => d.1)).sum_eq, List.map_map]
    rfl
  have hmean : (sorted.map (fun d => d.1)).sum / (sorted.length : ℝ)
      = meanDistance nodes := by
    rw [hsum1, hlen]; rfl
  rw [hmean]
  have hvar : (sorted.map (fun d => (d.1 - meanDistance nodes) ^ 2)).sum
      = (nodes.map (fun n => (nodeDistance nodes n - meanDistance nodes) ^ 2)).sum := by
    rw [(hsort.map (fun d : ℝ × NodeR => (d.1 - meanDistance nodes) ^ 2)).sum_eq,
      List.map_map]
    rfl
  rw [hvar, hlen]
  rfl

/-- Every member of a nonempty real list is bounded below by some member
whose value times the length is at most the sum. -/
theorem exists_mul_length_le_sum (l : List ℝ) (h : l ≠ []) :
    ∃ x ∈ l, x * l.length ≤ l.sum := by
  induction l with
  | nil => simp at h
  | cons a l ih =>
    cases l with
    | nil => exact ⟨a, by simp, by simp⟩
    | cons b m =>
      obtain ⟨x, hx, hxle⟩ := ih (by simp)
      by_cases hxa : x ≤ a
      · refine ⟨x, by simp [hx], ?_⟩
        simp only [List.length_cons, List.sum_cons] at hxle ⊢
        push_cast at hxle ⊢
        nlinarith
      · have hax : a ≤ x := le_of_not_le hxa
        refine ⟨a, by simp, ?_⟩
        have hn : (0 : ℝ) ≤ ((b :: m).length : ℝ) := by positivity
        have hmul : a * ((b :: m).length : ℝ) ≤ x * ((b :: m).length : ℝ) :=
          mul_le_mul_of_nonneg_right hax hn
        simp only [List.length_cons, List.sum_cons] at hxle hmul ⊢
        push_cast at hxle hmul ⊢
        nlinarith

/-- Some member of a nonempty real list is at most the mean. -/
theorem exists_le_mean (l : List ℝ) (h : l ≠ []) :
    ∃ x ∈ l, x ≤ l.sum / (l.length : ℝ) := by
  obtain ⟨x, hx, hxle⟩ := exists_mul_length_le_sum l h
  refine ⟨x, hx, ?_⟩
  have hl : (0 : ℝ) < (l.length : ℝ) := by
    have := List.length_pos.mpr h
    exact_mod_cast this
  rw [le_div_iff₀ hl]
  exact hxle

/-- Every node kept by `filter_main_nodes` comes from the input. -/
theorem filter_main_nodes_mem_of_mem (nodes : List NodeR) :
    ∀ n ∈ filter_main_nodes nodes, n ∈ nodes := by
  intro n hn
  by_cases h2 : nodes.length ≤ 2
  · rwa [filter_main_nodes_of_length_le_two nodes h2] at hn
  · push_neg at h2
    rw [filter_main_nodes_of_length_gt_two nodes h2] at hn
    obtain ⟨d, hd1, hd2⟩ := List.mem_map.mp hn
    have hd3 := (List.mem_filter.mp hd1).1
    have hd4 : d ∈ nodes.map (fun n => (nodeDistance nodes n, n)) :=
      ((List.mergeSort_perm _ _).mem_iff).mp hd3
    obtain ⟨m, hm, hme⟩ := List.mem_map.mp hd4
    rw [← hd2, ← hme]
    exact hm

/-- `filter_main_nodes` never empties a nonempty node list: the node whose
distance is minimal is below the mean, hence below `mean + 1.5·stddev`. -/
theorem filter_main_nodes_ne_nil (nodes : List NodeR) (h : nodes ≠ []) :
    filter_main_nodes nodes ≠ [] := by
  by_cases h2 : nodes.length ≤ 2
  · rwa [filter_main_nodes_of_length_le_two nodes h2]
  · push_neg at h2
    rw [filter_main_nodes_of_length_gt_two nodes h2]
    have hmap : nodes.map (nodeDistance nodes) ≠ [] := by
      simpa using h
    obtain ⟨x, hx, hxle⟩ := exists_le_mean (nodes.map (nodeDistance nodes)) hmap
    obtain ⟨n0, hn0, hdx⟩ := List.mem_map.mp hx
    have hxmean : x ≤ meanDistance nodes := by
      have := hxle
      rwa [List.length_map] at this
    have hxthr : x ≤ distanceThreshold nodes := by
      have hstd : 0 ≤ stdDistance nodes := Real.sqrt_nonneg _
      unfold distanceThreshold
      linarith
    intro hc
    have hpair : (nodeDistance nodes n0, n0)
        ∈ nodes.map (fun n => (nodeDistance nodes n, n)) :=
      List.mem_map_of_mem _ hn0
    have hpair2 : (nodeDistance nodes n0, n0)
        ∈ (nodes.map (fun n => (nodeDistance nodes n, n))).mergeSort
          (fun a b => decide (a.1 ≤ b.1)) :=
      ((List.mergeSort_perm _ _).mem_iff).mpr hpair
    have hfil : (nodeDistance nodes n0, n0)
        ∈ ((nodes.map (fun n => (nodeDistance nodes n, n))).mergeSort
          (fun a b => decide (a.1 ≤ b.1))).filter
            (fun d => decide (d.1 ≤ distanceThreshold nodes)) := by
      refine List.mem_filter.mpr ⟨hpair2, ?_⟩
      simp only [decide_eq_true_eq]
      rw [hdx]
      exact hxthr
    have hmem : n0 ∈ (((nodes.map (fun n => (nodeDistance nodes n, n))).mergeSort
        (fun a b => decide (a.1 ≤ b.1))).filter
          (fun d => decide (d.1 ≤ distanceThreshold nodes))).map (fun d => d.2) :=
      List.mem_map_of_mem _ hfil
    rw [hc] at hmem
    simp at hmem

/-- C10: for a nonempty node list, `filter_main_nodes` returns a nonempty
selection of input nodes, so the fallback branch of the extent computation
that rebuilds the bounding box from all nodes is unreachable. -/
theorem filter_main_nodes_safety_c10 (nodes : List NodeR) (h : nodes ≠ []) :
    filter_main_nodes nodes ≠ [] ∧ ∀ n ∈ filter_main_nodes nodes, n ∈ nodes :=
  ⟨filter_main_nodes_ne_nil nodes h, filter_main_nodes_mem_of_mem nodes⟩

/-- Witness for C10 on a concrete three-node list. -/
theorem filter_main_nodes_safety_c10_witness :
    ([⟨0, 0, 100, 50⟩, ⟨300, 0, 100, 50⟩, ⟨0, 300, 100, 50⟩] : List NodeR) ≠ []
    ∧ (filter_main_nodes [⟨0, 0, 100, 50⟩, ⟨300, 0, 100, 50⟩, ⟨0, 300, 100, 50⟩] ≠ []
      ∧ ∀ n ∈ filter_main_nodes [⟨0, 0, 100, 50⟩, ⟨300, 0, 100, 50⟩, ⟨0, 300, 100, 50⟩],
          n ∈ ([⟨0, 0, 100, 50⟩, ⟨300, 0, 100, 50⟩, ⟨0, 300, 100, 50⟩] : List NodeR)) :=
  ⟨by simp, filter_main_nodes_safety_c10 _ (by simp)⟩

/-- C6: for a nonempty node list the canvas extent is the bounding box of
the (always nonempty) filtered node set plus the 200-unit primary margin on
all sides plus the 100-unit title margin on top, with width and height
clamped up to 2000 × 1500 and offsets `-minX + 200` and `-minY + 200 + 100`;
for an empty node list it is exactly the minimum canvas with zero
offsets. -/
theorem computeExtent_spec_c6 :
    computeExtent ([] : List NodeR) = ⟨2000, 1500, 0, 0⟩
    ∧ ∀ nodes : List NodeR, nodes ≠ [] →
        computeExtent nodes = extentFormula (filter_main_nodes nodes) := by
  constructor
  · rfl
  · intro nodes hne
    cases nodes with
    | nil => exact absurd rfl hne
    | cons a l =>
      have hm : filter_main_nodes (a :: l) ≠ [] :=
        filter_main_nodes_ne_nil _ (by simp)
      cases hmn : filter_main_nodes (a :: l) with
      | nil => exact absurd hmn hm
      | cons b m =>
        simp only [computeExtent, extentFormula, hmn]

/-- Witness for C6 on a concrete one-node list. -/
theorem computeExtent_spec_c6_witness :
    ([⟨0, 0, 100, 50⟩] : List NodeR) ≠ []
    ∧ computeExtent [⟨0, 0, 100, 50⟩]
        = extentFormula (filter_main_nodes [⟨0, 0, 100, 50⟩]) :=
  ⟨by simp, computeExtent_spec_c6.2 _ (by simp)⟩
